import Mathlib

/-!
Shallow embedding of the conversation-orchestration core of the repository
(`FunctionalTesting/PytestAgentsSDK/tests/multi_turn_with_agent.py` and
`FunctionalTesting/PytestAgentsSDK/testinglib/azure_ai_agent_client.py`),
together with theorems settling the spec claims about it.

The two remote agent endpoints are modelled as pure functions of the call
index and of the arguments the orchestrator passes them; fallible remote
calls return `Except`.  The Python `while` loop of `start_conversation`
becomes a fuel-indexed structural recursion: the loop guard
`current_turn < MAX_TURNS` is still the condition that exits the loop, and
the fuel (set to `MAX_TURNS` at entry, while each iteration raises
`current_turn` by at least one from a start of `1`) can never run out first.
-/

namespace AgentTesting

/-- A single turn of the agent-to-agent conversation
(`ConversationTurn` in `multi_turn_with_agent.py`).  The Python `timestamp`
float is never supplied by the orchestrator and so is always the sentinel
`0.0`; it is modelled as a `Nat` sentinel `0`. -/
structure ConversationTurn where
  turn_number : Nat
  sender : String
  message : String
  timestamp : Nat := 0
deriving DecidableEq, Repr

/-- Kind of an activity in the Copilot Studio fragment stream
(`ActivityTypes.message` versus every other kind). -/
inductive ActivityType where
  | message
  | other
deriving DecidableEq, Repr

/-- One fragment of the Copilot Studio stream: a kind and an optional text
(`activity.text` may be `None` in the source). -/
structure Activity where
  type : ActivityType
  text : Option String
deriving DecidableEq, Repr

/-- Maximum number of conversation turns allowed before termination
(`MAX_TURNS = 20` in `multi_turn_with_agent.py`). -/
def MAX_TURNS : Nat := 20

/-- Python `str.strip()` on the character list: drop whitespace from both
ends. -/
def pyStripList (l : List Char) : List Char :=
  ((l.dropWhile Char.isWhitespace).reverse.dropWhile Char.isWhitespace).reverse

/-- Python `str.strip()`: drop whitespace from both ends. -/
def pyStrip (s : String) : String :=
  ⟨pyStripList s.data⟩

/-- The `async for` accumulation over the Copilot Studio stream
(lines 155-158 of `multi_turn_with_agent.py`): a `None` activity and a
non-`message` activity are skipped, and a `None` text contributes `""`
(`activity.text or ""`). -/
def collectCopilotResponse (acts : List (Option Activity)) : String :=
  acts.foldl (fun copilot_response oa =>
    match oa with
    | none => copilot_response
    | some activity =>
        if activity.type = ActivityType.message then
          copilot_response ++ activity.text.getD ""
        else copilot_response) ""

/-- What a single stream element contributes to the accumulated Copilot
Studio response text: nothing for a `None` activity or a non-`message`
activity, and the fragment text (with `None` text read as `""`) otherwise. -/
def fragment_text (oa : Option Activity) : String :=
  match oa with
  | none => ""
  | some activity =>
      if activity.type = ActivityType.message then activity.text.getD "" else ""

/-- Plain left-to-right concatenation of a list of strings. -/
def joinStrings : List String → String
  | [] => ""
  | s :: rest => s ++ joinStrings rest

/-- Sender display label used by `get_full_conversation_text`
(line 198 of `multi_turn_with_agent.py`). -/
def sender_label (sender : String) : String :=
  if sender = "azure_ai_agent" then "Azure AI Agent" else "Copilot Studio"

/-- `AgentToAgentConversation.get_full_conversation_text`
(lines 186-200 of `multi_turn_with_agent.py`). -/
def get_full_conversation_text (turns : List ConversationTurn) : String :=
  turns.foldl (fun conversation_text turn =>
    conversation_text ++ "Turn " ++ toString turn.turn_number ++ " - " ++
      sender_label turn.sender ++ ": " ++ turn.message ++ "\n\n") ""

/-- An element of the `turns` list inside the summary dict. -/
structure SummaryTurn where
  turn : Nat
  sender : String
  message : String
deriving DecidableEq, Repr

/-- The dict returned by `AgentToAgentConversation.get_conversation_summary`. -/
structure ConversationSummary where
  total_turns : Nat
  azure_ai_turns : Nat
  copilot_studio_turns : Nat
  conversation_length : Nat
  turns : List SummaryTurn
deriving DecidableEq, Repr

/-- `self.turns[-1].message`: the message of the most recent turn.  The
default is never reached, because the loop runs only after turn 1 is
seeded (a Python `turns[-1]` on an empty list would raise instead). -/
def last_message (turns : List ConversationTurn) : String :=
  (turns.getLastD ⟨0, "", "", 0⟩).message

/-- `AgentToAgentConversation.get_conversation_summary`
(lines 202-218 of `multi_turn_with_agent.py`). -/
def get_conversation_summary (turns : List ConversationTurn) : ConversationSummary where
  total_turns := turns.length
  azure_ai_turns := (turns.filter (fun t => t.sender == "azure_ai_agent")).length
  copilot_studio_turns := (turns.filter (fun t => t.sender == "copilot_studio")).length
  conversation_length := (get_full_conversation_text turns).length
  turns := turns.map (fun t => ⟨t.turn_number, t.sender, t.message⟩)

/-- The `while self.current_turn < MAX_TURNS` loop of
`AgentToAgentConversation.start_conversation` (lines 149-183 of
`multi_turn_with_agent.py`).  `copilot` and `azure` model the two remote
endpoints as functions of the loop-iteration index and of the arguments the
orchestrator passes; an `Except.error` models a raised exception.  The
returned pair is the `self.turns` field of the orchestrator at the moment the loop
exits or the exception unwinds, together with the propagated exception if
one was raised.  The fuel argument only bounds the recursion; the loop
guard exits first whenever `turns.length = current ≤ maxTurns ≤ fuel + current`. -/
def convLoopF {ε : Type} (copilot : Nat → String → Except ε (List (Option Activity)))
    (azure : Nat → String → Nat → Except ε String) (maxTurns : Nat) :
    Nat → List ConversationTurn → Nat → Nat → List ConversationTurn × Option ε
  | 0, turns, _, _ => (turns, none)
  | fuel + 1, turns, current, k =>
    if current < maxTurns then
      match copilot k (last_message turns) with
      | .error e => (turns, some e)
      | .ok acts =>
        let copilot_response := collectCopilotResponse acts
        let turns1 := turns ++
          [⟨current + 1, "copilot_studio", pyStrip copilot_response, 0⟩]
        if current + 1 ≥ maxTurns ∨ pyStrip copilot_response = "" then
          (turns1, none)
        else
          if current + 1 < maxTurns then
            match azure k (pyStrip copilot_response) (current + 1) with
            | .error e => (turns1, some e)
            | .ok next_message =>
              convLoopF copilot azure maxTurns fuel
                (turns1 ++ [⟨current + 2, "azure_ai_agent", next_message, 0⟩])
                (current + 2) (k + 1)
          else (turns1, none)
    else (turns, none)

/-- `AgentToAgentConversation.start_conversation` (lines 116-184 of
`multi_turn_with_agent.py`): state is reset, turn 1 is the literal topic
attributed to the Azure AI agent without calling its endpoint, then the
turn loop runs.  Returns the final `self.turns` and the propagated
exception, if any. -/
def start_conversation {ε : Type}
    (copilot : Nat → String → Except ε (List (Option Activity)))
    (azure : Nat → String → Nat → Except ε String) (initial_topic : String) :
    List ConversationTurn × Option ε :=
  convLoopF copilot azure MAX_TURNS MAX_TURNS
    [⟨1, "azure_ai_agent", initial_topic, 0⟩] 1 0

/-- The turn-loop pseudocode of the spec (section 4.3 of the spec), written
from the words of the spec for the refinement claim: `agentB` returns the new
response text directly, `agentA` receives the stripped response and the
current turn index, no remote call fails, and the sender names are the
configuration values of the source for AgentB / AgentA. -/
def specTurnLoopF (agentB : Nat → String → String)
    (agentA : Nat → String → Nat → String) (maxTurns : Nat) :
    Nat → List ConversationTurn → Nat → Nat → List ConversationTurn
  | 0, turns, _, _ => turns
  | fuel + 1, turns, current, k =>
    if current < maxTurns then
      let responseText := agentB k (last_message turns)
      let turns1 := turns ++ [⟨current + 1, "copilot_studio", pyStrip responseText, 0⟩]
      if current + 1 ≥ maxTurns ∨ pyStrip responseText = "" then turns1
      else
        if current + 1 < maxTurns then
          let nextText := agentA k (pyStrip responseText) (current + 1)
          specTurnLoopF agentB agentA maxTurns fuel
            (turns1 ++ [⟨current + 2, "azure_ai_agent", nextText, 0⟩])
            (current + 2) (k + 1)
        else turns1
    else turns

/-- The spec pseudocode algorithm from its first line
(`turns = [ TurnRecord(1, AgentA, topic) ]; current = 1`) to its `return`. -/
def spec_start_conversation (agentB : Nat → String → String)
    (agentA : Nat → String → Nat → String) (topic : String) :
    List ConversationTurn :=
  specTurnLoopF agentB agentA MAX_TURNS MAX_TURNS
    [⟨1, "azure_ai_agent", topic, 0⟩] 1 0

/-- An entry of `AzureAIAgentClient.conversation_history`: a dict with
`role`, `content` and `turn` keys. -/
structure HistoryEntry where
  role : String
  content : String
  turn : Nat
deriving DecidableEq, Repr

/-- A chat message sent to the completions API: a dict with `role` and
`content` keys. -/
structure ChatMessage where
  role : String
  content : String
deriving DecidableEq, Repr

/-- The `messages` list built by `AzureAIAgentClient.continue_conversation`
(lines 132-146 of `azure_ai_agent_client.py`): system prompt, then the
conversation history with every non-`assistant` entry sent as `user`, then
the explicit continuation instruction naming the next turn index. -/
def build_messages (system_prompt : String) (history : List HistoryEntry)
    (turn_number : Nat) : List ChatMessage :=
  [⟨"system", system_prompt⟩] ++
    history.map (fun entry =>
      if entry.role = "assistant" then ⟨"assistant", entry.content⟩
      else ⟨"user", entry.content⟩) ++
    [⟨"user", "Continue the conversation based on the response above. This is turn " ++
      toString (turn_number + 1) ++ " of the conversation."⟩]

/-- `AzureAIAgentClient.continue_conversation` (lines 114-171 of
`azure_ai_agent_client.py`).  `api` models the
`client.chat.completions.create` remote call; its `Except.error` payload is
`str(e)` of the raised exception.  The state threaded through is
`self.conversation_history`; the result pairs the history after the call
with either the returned message or the re-raised wrapped exception.
The incoming message is appended to the history *before* the remote call
and stays there when the call fails. -/
def continue_conversation (api : List ChatMessage → Except String String)
    (system_prompt : String) (conversation_history : List HistoryEntry)
    (other_agent_response : String) (turn_number : Nat) :
    List HistoryEntry × Except String String :=
  let history1 := conversation_history ++
    [⟨"user", other_agent_response, turn_number⟩]
  match api (build_messages system_prompt history1 turn_number) with
  | .ok next_message =>
      (history1 ++ [⟨"assistant", next_message, turn_number + 1⟩], .ok next_message)
  | .error e => (history1, .error ("Failed to continue conversation: " ++ e))

/-!
A small Python-object heap, used only to analyse the aliasing behaviour of
`AzureAIAgentClient.get_conversation_history` (lines 173-175 of
`azure_ai_agent_client.py`), which returns `self.conversation_history.copy()`:
list objects and entry dicts live at addresses, the client field
`conversation_history` field holds the address of a list object, and that
list object holds the addresses of the (mutable, shared) entry dicts.
-/

/-- Heap of Python objects: list objects (addressed sequences of entry
addresses) and entry dicts (addressed `HistoryEntry` values). -/
structure PyHeap where
  lists : Nat → List Nat
  entries : Nat → HistoryEntry

/-- In-place mutation of the list object at address `i` (e.g. `append`,
`remove`, slice assignment by the caller). -/
def updateList (h : PyHeap) (i : Nat) (l : List Nat) : PyHeap :=
  ⟨fun j => if j = i then l else h.lists j, h.entries⟩

/-- In-place mutation of the entry dict at address `i`
(e.g. `record["content"] = ...` by the caller). -/
def updateEntry (h : PyHeap) (i : Nat) (e : HistoryEntry) : PyHeap :=
  ⟨h.lists, fun j => if j = i then e else h.entries j⟩

/-- The conversation history the client itself observes: the entry dicts
reached from the list object its `conversation_history` field points to.
`histAddr` is the address stored in that field. -/
def viewHistory (h : PyHeap) (histAddr : Nat) : List HistoryEntry :=
  (h.lists histAddr).map h.entries

/-- `AzureAIAgentClient.get_conversation_history`:
`self.conversation_history.copy()` allocates a fresh list object (at the
caller-visible fresh address `fresh`) holding the *same entry addresses* as
the internal list — a shallow copy.  Returns the heap after allocation
and the address of the returned list. -/
def get_conversation_history (h : PyHeap) (histAddr : Nat) (fresh : Nat) :
    PyHeap × Nat :=
  (updateList h fresh (h.lists histAddr), fresh)

/-!  General-purpose helper lemmas shared by the claim theorems. -/

theorem str_empty_append (s : String) : "" ++ s = s := by
  cases s
  rfl

theorem str_append_empty (s : String) : s ++ "" = s := by
  cases s with
  | mk data => show String.mk (data ++ []) = String.mk data; rw [List.append_nil]

theorem dropWhile_idem (p : Char → Bool) (l : List Char) :
    (l.dropWhile p).dropWhile p = l.dropWhile p := by
  induction l with
  | nil => rfl
  | cons x xs ih =>
    by_cases h : p x <;> simp [List.dropWhile_cons, h, ih]

theorem dropWhile_eq_self_of_append (p : Char → Bool) (b r : List Char)
    (h : (b ++ r).dropWhile p = b ++ r) : b.dropWhile p = b := by
  cases b with
  | nil => rfl
  | cons x xs =>
    have hx : p x = false := by
      have hh := List.head?_dropWhile_not p ((x :: xs) ++ r)
      rw [h] at hh
      simpa using hh
    simp [List.dropWhile_cons, hx]

theorem pyStripList_idem (l : List Char) :
    pyStripList (pyStripList l) = pyStripList l := by
  unfold pyStripList
  set p := Char.isWhitespace with hp
  set A := l.dropWhile p with hA
  set C := A.reverse.dropWhile p with hC
  -- the right-stripped `C.reverse` is a prefix of `A`, which is a
  -- left-strip fixpoint, so `C.reverse` is one too
  have hb : A.reverse.takeWhile p ++ C = A.reverse :=
    List.takeWhile_append_dropWhile p A.reverse
  have hArev : A = C.reverse ++ (A.reverse.takeWhile p).reverse := by
    have h2 := congrArg List.reverse hb
    simpa using h2.symm
  have hAfix : A.dropWhile p = A := by
    rw [hA]; exact dropWhile_idem p l
  have hBfix : C.reverse.dropWhile p = C.reverse := by
    apply dropWhile_eq_self_of_append p C.reverse (A.reverse.takeWhile p).reverse
    rw [← hArev]; exact hAfix
  have hCfix : C.dropWhile p = C := by
    rw [hC]; exact dropWhile_idem p A.reverse
  rw [hBfix]
  simp only [List.reverse_reverse]
  rw [hCfix]

/-- Stripping twice strips once: `pyStrip` is idempotent, so a stripped
string has no leading or trailing whitespace left to remove. -/
theorem pyStrip_idem (s : String) : pyStrip (pyStrip s) = pyStrip s :=
  congrArg String.mk (pyStripList_idem s.data)

theorem foldl_append_string {α : Type} (f : α → String) (g : String → α → String)
    (hg : ∀ acc x, g acc x = acc ++ f x) (l : List α) :
    ∀ init : String, l.foldl g init = init ++ joinStrings (l.map f) := by
  induction l with
  | nil =>
    intro init
    simp [joinStrings, str_append_empty]
  | cons x xs ih =>
    intro init
    rw [List.foldl_cons, ih (g init x), hg, List.map_cons]
    show init ++ f x ++ joinStrings (xs.map f) =
      init ++ (f x ++ joinStrings (xs.map f))
    rw [String.append_assoc]

/-- The turn numbers of a list of records are 1-based and strictly
contiguous: the record at 0-based index `i` is numbered `i + 1`. -/
def contiguousTurns (l : List ConversationTurn) : Prop :=
  ∀ i (h : i < l.length), l[i].turn_number = i + 1

/-- A record from Copilot Studio with an empty message can only sit at the
very end of the list. -/
def emptyCopilotOnlyLast (l : List ConversationTurn) : Prop :=
  ∀ i (h : i < l.length), l[i].sender = "copilot_studio" →
    l[i].message = "" → i + 1 = l.length

/-- Appending one record numbered `length + 1` preserves 1-based contiguous
turn numbering. -/
theorem contiguous_append (l : List ConversationTurn) (t : ConversationTurn)
    (hl : contiguousTurns l) (ht : t.turn_number = l.length + 1) :
    contiguousTurns (l ++ [t]) := by
  intro i h
  rcases Nat.lt_or_ge i l.length with hi | hi
  · rw [List.getElem_append_left hi]
    exact hl i hi
  · have hlen : i = l.length := by
      have := List.length_append l [t]
      simp at h
      omega
    rw [List.getElem_concat_length l t i hlen]
    omega

/-- In a list with no empty Copilot Studio record at all, such a record
trivially only sits at the end. -/
theorem emptyCopilotOnlyLast_of_clean (l : List ConversationTurn)
    (hl : ∀ u ∈ l, u.sender = "copilot_studio" → u.message ≠ "") :
    emptyCopilotOnlyLast l := by
  intro i h hsend hmsg
  exact absurd hmsg (hl l[i] (List.getElem_mem h) hsend)

/-- Appending any one record to a list with no empty Copilot Studio record
keeps empty Copilot Studio records at the end only. -/
theorem emptyCopilotOnlyLast_append (l : List ConversationTurn)
    (t : ConversationTurn)
    (hl : ∀ u ∈ l, u.sender = "copilot_studio" → u.message ≠ "") :
    emptyCopilotOnlyLast (l ++ [t]) := by
  intro i h hsend hmsg
  simp only [List.length_append, List.length_singleton] at h ⊢
  rcases Nat.lt_or_ge i l.length with hi | hi
  · rw [List.getElem_append_left hi] at hsend hmsg
    exact absurd hmsg (hl l[i] (List.getElem_mem hi) hsend)
  · omega

/-- The turn list only ever grows during the loop: whatever turn records
exist when an iteration starts are still there, unchanged and in place, in
the final result (append-only). -/
theorem convLoopF_extends {ε : Type}
    (copilot : Nat → String → Except ε (List (Option Activity)))
    (azure : Nat → String → Nat → Except ε String) (maxTurns : Nat) :
    ∀ (fuel : Nat) (turns : List ConversationTurn) (current k : Nat),
      ∃ rest, (convLoopF copilot azure maxTurns fuel turns current k).1 =
        turns ++ rest := by
  intro fuel
  induction fuel with
  | zero => exact fun turns current k => ⟨[], by simp [convLoopF]⟩
  | succ fuel ih =>
    intro turns current k
    by_cases hc : current < maxTurns
    · cases hB : copilot k (last_message turns) with
      | error e => exact ⟨[], by simp [convLoopF, hc, hB]⟩
      | ok acts =>
        by_cases hstop : current + 1 ≥ maxTurns ∨
            pyStrip (collectCopilotResponse acts) = ""
        · exact ⟨[⟨current + 1, "copilot_studio",
            pyStrip (collectCopilotResponse acts), 0⟩],
            by simp [convLoopF, hc, hB, hstop]⟩
        · have hlt : current + 1 < maxTurns := by
            rcases Nat.lt_or_ge (current + 1) maxTurns with h | h
            · exact h
            · exact absurd (Or.inl h) hstop
          cases hA : azure k (pyStrip (collectCopilotResponse acts)) (current + 1) with
          | error e =>
            exact ⟨[⟨current + 1, "copilot_studio",
              pyStrip (collectCopilotResponse acts), 0⟩],
              by simp [convLoopF, hc, hB, hstop, hlt, hA]⟩
          | ok next_message =>
            obtain ⟨rest, hrest⟩ := ih
              (turns ++ [⟨current + 1, "copilot_studio",
                  pyStrip (collectCopilotResponse acts), 0⟩] ++
                [⟨current + 2, "azure_ai_agent", next_message, 0⟩])
              (current + 2) (k + 1)
            refine ⟨⟨current + 1, "copilot_studio",
                pyStrip (collectCopilotResponse acts), 0⟩ ::
              ⟨current + 2, "azure_ai_agent", next_message, 0⟩ :: rest, ?_⟩
            have hunf : convLoopF copilot azure maxTurns (fuel + 1) turns current k =
                convLoopF copilot azure maxTurns fuel
                  (turns ++ [⟨current + 1, "copilot_studio",
                      pyStrip (collectCopilotResponse acts), 0⟩] ++
                    [⟨current + 2, "azure_ai_agent", next_message, 0⟩])
                  (current + 2) (k + 1) := by
              simp [convLoopF, hc, hB, hstop, hlt, hA]
            rw [hunf, hrest]
            simp
    · exact ⟨[], by simp [convLoopF, hc]⟩

/-- Loop invariant: `self.current_turn` mirrors `len(self.turns)` and stays
at most `maxTurns`, so the final turn list never exceeds `maxTurns`. -/
theorem convLoopF_length_le {ε : Type}
    (copilot : Nat → String → Except ε (List (Option Activity)))
    (azure : Nat → String → Nat → Except ε String) (maxTurns : Nat) :
    ∀ (fuel : Nat) (turns : List ConversationTurn) (current k : Nat),
      turns.length = current → current ≤ maxTurns →
      (convLoopF copilot azure maxTurns fuel turns current k).1.length ≤ maxTurns := by
  intro fuel
  induction fuel with
  | zero =>
    intro turns current k hlen hmax
    simp [convLoopF]
    omega
  | succ fuel ih =>
    intro turns current k hlen hmax
    by_cases hc : current < maxTurns
    · cases hB : copilot k (last_message turns) with
      | error e =>
        simp [convLoopF, hc, hB]
        omega
      | ok acts =>
        by_cases hstop : current + 1 ≥ maxTurns ∨
            pyStrip (collectCopilotResponse acts) = ""
        · simp [convLoopF, hc, hB, hstop]
          omega
        · have hlt : current + 1 < maxTurns := by
            rcases Nat.lt_or_ge (current + 1) maxTurns with h | h
            · exact h
            · exact absurd (Or.inl h) hstop
          cases hA : azure k (pyStrip (collectCopilotResponse acts)) (current + 1) with
          | error e =>
            simp [convLoopF, hc, hB, hstop, hlt, hA]
            omega
          | ok next_message =>
            have hunf : convLoopF copilot azure maxTurns (fuel + 1) turns current k =
                convLoopF copilot azure maxTurns fuel
                  (turns ++ [⟨current + 1, "copilot_studio",
                      pyStrip (collectCopilotResponse acts), 0⟩] ++
                    [⟨current + 2, "azure_ai_agent", next_message, 0⟩])
                  (current + 2) (k + 1) := by
              simp [convLoopF, hc, hB, hstop, hlt, hA]
            rw [hunf]
            apply ih
            · simp
              omega
            · omega
    · simp [convLoopF, hc]
      omega

/-- Loop invariant: any property `P` that the seed turns satisfy and that
every Copilot Studio record (a stripped message) and every Azure AI record
satisfies, holds of every record in the final list. -/
theorem convLoopF_all {ε : Type} (P : ConversationTurn → Prop)
    (copilot : Nat → String → Except ε (List (Option Activity)))
    (azure : Nat → String → Nat → Except ε String) (maxTurns : Nat)
    (hPc : ∀ n s, P ⟨n, "copilot_studio", pyStrip s, 0⟩)
    (hPa : ∀ n s, P ⟨n, "azure_ai_agent", s, 0⟩) :
    ∀ (fuel : Nat) (turns : List ConversationTurn) (current k : Nat),
      (∀ t ∈ turns, P t) →
      ∀ t ∈ (convLoopF copilot azure maxTurns fuel turns current k).1, P t := by
  intro fuel
  induction fuel with
  | zero =>
    intro turns current k hP
    simpa [convLoopF] using hP
  | succ fuel ih =>
    intro turns current k hP
    by_cases hc : current < maxTurns
    · cases hB : copilot k (last_message turns) with
      | error e => simpa [convLoopF, hc, hB] using hP
      | ok acts =>
        by_cases hstop : current + 1 ≥ maxTurns ∨
            pyStrip (collectCopilotResponse acts) = ""
        · intro t ht
          simp [convLoopF, hc, hB, hstop] at ht
          rcases ht with ht | ht
          · exact hP t ht
          · rw [ht]; exact hPc _ _
        · have hlt : current + 1 < maxTurns := by
            rcases Nat.lt_or_ge (current + 1) maxTurns with h | h
            · exact h
            · exact absurd (Or.inl h) hstop
          cases hA : azure k (pyStrip (collectCopilotResponse acts)) (current + 1) with
          | error e =>
            intro t ht
            simp [convLoopF, hc, hB, hstop, hlt, hA] at ht
            rcases ht with ht | ht
            · exact hP t ht
            · rw [ht]; exact hPc _ _
          | ok next_message =>
            have hunf : convLoopF copilot azure maxTurns (fuel + 1) turns current k =
                convLoopF copilot azure maxTurns fuel
                  (turns ++ [⟨current + 1, "copilot_studio",
                      pyStrip (collectCopilotResponse acts), 0⟩] ++
                    [⟨current + 2, "azure_ai_agent", next_message, 0⟩])
                  (current + 2) (k + 1) := by
              simp [convLoopF, hc, hB, hstop, hlt, hA]
            rw [hunf]
            apply ih
            intro t ht
            simp only [List.mem_append, List.mem_singleton] at ht
            rcases ht with (ht | ht) | ht
            · exact hP t ht
            · rw [ht]; exact hPc _ _
            · rw [ht]; exact hPa _ _
    · simpa [convLoopF, hc] using hP

/-- Loop invariant: 1-based contiguous turn numbering is preserved, because
each iteration appends records numbered `current + 1` and `current + 2`
while `current` mirrors the list length. -/
theorem convLoopF_turn_numbers {ε : Type}
    (copilot : Nat → String → Except ε (List (Option Activity)))
    (azure : Nat → String → Nat → Except ε String) (maxTurns : Nat) :
    ∀ (fuel : Nat) (turns : List ConversationTurn) (current k : Nat),
      turns.length = current → contiguousTurns turns →
      contiguousTurns (convLoopF copilot azure maxTurns fuel turns current k).1 := by
  intro fuel
  induction fuel with
  | zero =>
    intro turns current k hlen hcont
    simpa [convLoopF] using hcont
  | succ fuel ih =>
    intro turns current k hlen hcont
    by_cases hc : current < maxTurns
    · cases hB : copilot k (last_message turns) with
      | error e => simpa [convLoopF, hc, hB] using hcont
      | ok acts =>
        have hcont1 := contiguous_append turns
          (⟨current + 1, "copilot_studio",
            pyStrip (collectCopilotResponse acts), 0⟩ : ConversationTurn)
          hcont (by simp [hlen])
        by_cases hstop : current + 1 ≥ maxTurns ∨
            pyStrip (collectCopilotResponse acts) = ""
        · have hgoal : (convLoopF copilot azure maxTurns (fuel + 1) turns current k).1 =
              turns ++ [⟨current + 1, "copilot_studio",
                pyStrip (collectCopilotResponse acts), 0⟩] := by
            simp [convLoopF, hc, hB, hstop]
          rw [hgoal]
          exact hcont1
        · have hlt : current + 1 < maxTurns := by
            rcases Nat.lt_or_ge (current + 1) maxTurns with h | h
            · exact h
            · exact absurd (Or.inl h) hstop
          cases hA : azure k (pyStrip (collectCopilotResponse acts)) (current + 1) with
          | error e =>
            have hgoal : (convLoopF copilot azure maxTurns (fuel + 1) turns current k).1 =
                turns ++ [⟨current + 1, "copilot_studio",
                  pyStrip (collectCopilotResponse acts), 0⟩] := by
              simp [convLoopF, hc, hB, hstop, hlt, hA]
            rw [hgoal]
            exact hcont1
          | ok next_message =>
            have hunf : convLoopF copilot azure maxTurns (fuel + 1) turns current k =
                convLoopF copilot azure maxTurns fuel
                  (turns ++ [⟨current + 1, "copilot_studio",
                      pyStrip (collectCopilotResponse acts), 0⟩] ++
                    [⟨current + 2, "azure_ai_agent", next_message, 0⟩])
                  (current + 2) (k + 1) := by
              simp [convLoopF, hc, hB, hstop, hlt, hA]
            rw [hunf]
            apply ih
            · simp [hlen]
            · exact contiguous_append _ _ hcont1 (by simp [hlen])
    · simpa [convLoopF, hc] using hcont

/-- Loop invariant: an empty Copilot Studio record can only be the final
record, because the loop breaks immediately after recording one and no
earlier iteration leaves one behind. -/
theorem convLoopF_empty_copilot_last {ε : Type}
    (copilot : Nat → String → Except ε (List (Option Activity)))
    (azure : Nat → String → Nat → Except ε String) (maxTurns : Nat) :
    ∀ (fuel : Nat) (turns : List ConversationTurn) (current k : Nat),
      (∀ t ∈ turns, t.sender = "copilot_studio" → t.message ≠ "") →
      emptyCopilotOnlyLast (convLoopF copilot azure maxTurns fuel turns current k).1 := by
  intro fuel
  induction fuel with
  | zero =>
    intro turns current k hne
    have hgoal : (convLoopF copilot azure maxTurns 0 turns current k).1 = turns := by
      simp [convLoopF]
    rw [hgoal]
    exact emptyCopilotOnlyLast_of_clean turns hne
  | succ fuel ih =>
    intro turns current k hne
    by_cases hc : current < maxTurns
    · cases hB : copilot k (last_message turns) with
      | error e =>
        have hgoal : (convLoopF copilot azure maxTurns (fuel + 1) turns current k).1 =
            turns := by simp [convLoopF, hc, hB]
        rw [hgoal]
        exact emptyCopilotOnlyLast_of_clean turns hne
      | ok acts =>
        by_cases hstop : current + 1 ≥ maxTurns ∨
            pyStrip (collectCopilotResponse acts) = ""
        · have hgoal : (convLoopF copilot azure maxTurns (fuel + 1) turns current k).1 =
              turns ++ [⟨current + 1, "copilot_studio",
                pyStrip (collectCopilotResponse acts), 0⟩] := by
            simp [convLoopF, hc, hB, hstop]
          rw [hgoal]
          exact emptyCopilotOnlyLast_append turns _ hne
        · have hlt : current + 1 < maxTurns := by
            rcases Nat.lt_or_ge (current + 1) maxTurns with h | h
            · exact h
            · exact absurd (Or.inl h) hstop
          have hresp : pyStrip (collectCopilotResponse acts) ≠ "" := by
            intro hcontra
            exact hstop (Or.inr hcontra)
          cases hA : azure k (pyStrip (collectCopilotResponse acts)) (current + 1) with
          | error e =>
            have hgoal : (convLoopF copilot azure maxTurns (fuel + 1) turns current k).1 =
                turns ++ [⟨current + 1, "copilot_studio",
                  pyStrip (collectCopilotResponse acts), 0⟩] := by
              simp [convLoopF, hc, hB, hstop, hlt, hA]
            rw [hgoal]
            exact emptyCopilotOnlyLast_append turns _ hne
          | ok next_message =>
            have hunf : convLoopF copilot azure maxTurns (fuel + 1) turns current k =
                convLoopF copilot azure maxTurns fuel
                  (turns ++ [⟨current + 1, "copilot_studio",
                      pyStrip (collectCopilotResponse acts), 0⟩] ++
                    [⟨current + 2, "azure_ai_agent", next_message, 0⟩])
                  (current + 2) (k + 1) := by
              simp [convLoopF, hc, hB, hstop, hlt, hA]
            rw [hunf]
            apply ih
            intro t ht
            simp only [List.mem_append, List.mem_singleton] at ht
            rcases ht with (ht | ht) | ht
            · exact hne t ht
            · rw [ht]
              intro _ hmsg
              exact hresp hmsg
            · rw [ht]
              intro hsend
              simp at hsend
    · have hgoal : (convLoopF copilot azure maxTurns (fuel + 1) turns current k).1 =
          turns := by simp [convLoopF, hc]
      rw [hgoal]
      exact emptyCopilotOnlyLast_of_clean turns hne

/-- Collecting a stream holding exactly one message fragment yields the
text of that fragment. -/
theorem collect_single (s : String) :
    collectCopilotResponse [some ⟨ActivityType.message, some s⟩] = s := by
  simp [collectCopilotResponse, str_empty_append]

/-- One loop iteration in which the Copilot Studio call raises: the loop
state is returned as-is together with the propagated exception. -/
theorem convLoopF_error_step {ε : Type}
    (copilot : Nat → String → Except ε (List (Option Activity)))
    (azure : Nat → String → Nat → Except ε String) (maxTurns fuel : Nat)
    (turns : List ConversationTurn) (current k : Nat) (e : ε)
    (hc : current < maxTurns)
    (hB : copilot k (last_message turns) = Except.error e) :
    convLoopF copilot azure maxTurns (fuel + 1) turns current k =
      (turns, some e) := by
  simp [convLoopF, hc, hB]

/-- One loop iteration in which a termination condition fires right after
the Copilot Studio turn: that turn is recorded and the loop ends. -/
theorem convLoopF_stop_step {ε : Type}
    (copilot : Nat → String → Except ε (List (Option Activity)))
    (azure : Nat → String → Nat → Except ε String) (maxTurns fuel : Nat)
    (turns : List ConversationTurn) (current k : Nat)
    (acts : List (Option Activity))
    (hc : current < maxTurns)
    (hB : copilot k (last_message turns) = Except.ok acts)
    (hstop : current + 1 ≥ maxTurns ∨ pyStrip (collectCopilotResponse acts) = "") :
    convLoopF copilot azure maxTurns (fuel + 1) turns current k =
      (turns ++ [⟨current + 1, "copilot_studio",
        pyStrip (collectCopilotResponse acts), 0⟩], none) := by
  simp [convLoopF, hc, hB, hstop]

/-- The implemented loop, run against endpoints that cannot fail and whose
per-call texts are given by `agentB` / `agentA`, computes exactly what the
spec pseudocode loop computes, with no exception. -/
theorem convLoopF_eq_spec {ε : Type} (agentB : Nat → String → String)
    (agentA : Nat → String → Nat → String) (maxTurns : Nat) :
    ∀ (fuel : Nat) (turns : List ConversationTurn) (current k : Nat),
      convLoopF
        (fun j m => (Except.ok [some ⟨ActivityType.message, some (agentB j m)⟩] :
          Except ε (List (Option Activity))))
        (fun j m n => Except.ok (agentA j m n)) maxTurns fuel turns current k =
      (specTurnLoopF agentB agentA maxTurns fuel turns current k, none) := by
  intro fuel
  induction fuel with
  | zero =>
    intro turns current k
    simp [convLoopF, specTurnLoopF]
  | succ fuel ih =>
    intro turns current k
    by_cases hc : current < maxTurns
    · by_cases hstop : current + 1 ≥ maxTurns ∨
          pyStrip (agentB k (last_message turns)) = ""
      · simp [convLoopF, specTurnLoopF, hc, collect_single, hstop]
      · have hlt : current + 1 < maxTurns := by
          rcases Nat.lt_or_ge (current + 1) maxTurns with h | h
          · exact h
          · exact absurd (Or.inl h) hstop
        simp only [convLoopF, specTurnLoopF, collect_single, if_pos hc,
          if_neg hstop, if_pos hlt]
        exact ih _ _ _
    · simp [convLoopF, specTurnLoopF, hc]

/-- C1: for every execution of `start_conversation`, and at every point
during it (any loop state in which `current_turn` mirrors `len(turns)` and
has not passed the cap), the length of the turns list never exceeds
`MAX_TURNS`, regardless of what the two endpoints return. -/
theorem claim_C1_turns_never_exceed_max_turns {ε : Type}
    (copilot : Nat → String → Except ε (List (Option Activity)))
    (azure : Nat → String → Nat → Except ε String) (initial_topic : String)
    (fuel : Nat) (turns : List ConversationTurn) (current k : Nat)
    (hlen : turns.length = current) (hmax : current ≤ MAX_TURNS) :
    (start_conversation copilot azure initial_topic).1.length ≤ MAX_TURNS ∧
    (convLoopF copilot azure MAX_TURNS fuel turns current k).1.length ≤
      MAX_TURNS := by
  constructor
  · exact convLoopF_length_le copilot azure MAX_TURNS MAX_TURNS
      [⟨1, "azure_ai_agent", initial_topic, 0⟩] 1 0 rfl (by decide)
  · exact convLoopF_length_le copilot azure MAX_TURNS fuel turns current k
      hlen hmax

/-- Witness for C1: concrete endpoints, topic and loop state. -/
theorem claim_C1_turns_never_exceed_max_turns_witness :
    ([(⟨1, "azure_ai_agent", "Hi", 0⟩ : ConversationTurn)]).length = 1 ∧
    1 ≤ MAX_TURNS ∧
    ((start_conversation (fun _ _ => Except.ok ([] : List (Option Activity)))
        (fun _ _ _ => (Except.ok "" : Except Unit String)) "Hi").1.length ≤
      MAX_TURNS ∧
    (convLoopF (fun _ _ => Except.ok ([] : List (Option Activity)))
        (fun _ _ _ => (Except.ok "" : Except Unit String)) MAX_TURNS 0
        [⟨1, "azure_ai_agent", "Hi", 0⟩] 1 0).1.length ≤ MAX_TURNS) :=
  ⟨by decide, by decide,
    claim_C1_turns_never_exceed_max_turns _ _ "Hi" 0
      [⟨1, "azure_ai_agent", "Hi", 0⟩] 1 0 (by decide) (by decide)⟩

/-- C2: the turns list returned by `start_conversation` is 1-based and
strictly contiguous (`turns[i].turn_number = i + 1` with no gaps), and the
loop is append-only: any loop state `turns` is an unchanged initial segment
of the final list. -/
theorem claim_C2_turn_numbers_contiguous_append_only {ε : Type}
    (copilot : Nat → String → Except ε (List (Option Activity)))
    (azure : Nat → String → Nat → Except ε String) (initial_topic : String)
    (fuel : Nat) (turns : List ConversationTurn) (current k : Nat) :
    contiguousTurns (start_conversation copilot azure initial_topic).1 ∧
    ∃ rest, (convLoopF copilot azure MAX_TURNS fuel turns current k).1 =
      turns ++ rest := by
  constructor
  · apply convLoopF_turn_numbers copilot azure MAX_TURNS MAX_TURNS
      [⟨1, "azure_ai_agent", initial_topic, 0⟩] 1 0 rfl
    intro i h
    simp at h
    subst h
    rfl
  · exact convLoopF_extends copilot azure MAX_TURNS fuel turns current k

/-- Witness for C2: concrete endpoints, index and loop state. -/
theorem claim_C2_turn_numbers_contiguous_append_only_witness :
    (0 < (start_conversation (fun _ _ => Except.ok ([] : List (Option Activity)))
        (fun _ _ _ => (Except.ok "" : Except Unit String)) "Hi").1.length) ∧
    ((start_conversation (fun _ _ => Except.ok ([] : List (Option Activity)))
        (fun _ _ _ => (Except.ok "" : Except Unit String)) "Hi").1)[0].turn_number =
      0 + 1 ∧
    ∃ rest, (convLoopF (fun _ _ => Except.ok ([] : List (Option Activity)))
        (fun _ _ _ => (Except.ok "" : Except Unit String)) MAX_TURNS 0
        [⟨1, "azure_ai_agent", "Hi", 0⟩] 1 0).1 =
      [(⟨1, "azure_ai_agent", "Hi", 0⟩ : ConversationTurn)] ++ rest :=
  ⟨by decide,
    (claim_C2_turn_numbers_contiguous_append_only _ _ "Hi" 0
      [⟨1, "azure_ai_agent", "Hi", 0⟩] 1 0).1 0 (by decide),
    (claim_C2_turn_numbers_contiguous_append_only _ _ "Hi" 0
      [⟨1, "azure_ai_agent", "Hi", 0⟩] 1 0).2⟩

/-- C3: the implemented turn loop equals the spec pseudocode algorithm for
arbitrary endpoint behaviours modeled as functions — turn 1 is the literal
topic attributed to the Azure AI agent without calling its endpoint, then
the agents strictly alternate, each receiving exactly the previous message
— and with echo endpoints and topic `"Hello"`, turn 2 is `"echo:Hello"`
and turn 3 is `"echo:echo:Hello"`. -/
theorem claim_C3_loop_equals_spec_pseudocode {ε : Type}
    (agentB : Nat → String → String) (agentA : Nat → String → Nat → String)
    (topic : String) :
    start_conversation
        (fun j m => (Except.ok [some ⟨ActivityType.message, some (agentB j m)⟩] :
          Except ε (List (Option Activity))))
        (fun j m n => Except.ok (agentA j m n)) topic =
      (spec_start_conversation agentB agentA topic, none) ∧
    ((start_conversation
        (fun _ m => (Except.ok [some ⟨ActivityType.message, some ("echo:" ++ m)⟩] :
          Except Unit (List (Option Activity))))
        (fun _ m _ => Except.ok ("echo:" ++ m)) "Hello").1.take 3 =
      [⟨1, "azure_ai_agent", "Hello", 0⟩,
       ⟨2, "copilot_studio", "echo:Hello", 0⟩,
       ⟨3, "azure_ai_agent", "echo:echo:Hello", 0⟩]) := by
  constructor
  · exact convLoopF_eq_spec agentB agentA MAX_TURNS MAX_TURNS
      [⟨1, "azure_ai_agent", topic, 0⟩] 1 0
  · decide

/-- C4: for every endpoint behavior whatsoever, an empty (post-strip)
Copilot Studio message — produced at any invocation, first or later —
terminates the conversation immediately after being recorded: an empty
Copilot Studio record can only be the final record, so no further Azure AI
turn follows it.  And concretely, whenever the Copilot Studio endpoint
produces an empty message on its first invocation, the result is exactly
the seed turn followed by one empty Copilot Studio turn and no
exception. -/
theorem claim_C4_empty_copilot_message_terminates {ε : Type}
    (copilot : Nat → String → Except ε (List (Option Activity)))
    (azure : Nat → String → Nat → Except ε String) (initial_topic : String)
    (acts : List (Option Activity)) :
    emptyCopilotOnlyLast (start_conversation copilot azure initial_topic).1 ∧
    (copilot 0 initial_topic = Except.ok acts →
      pyStrip (collectCopilotResponse acts) = "" →
      start_conversation copilot azure initial_topic =
        ([⟨1, "azure_ai_agent", initial_topic, 0⟩,
          ⟨2, "copilot_studio", "", 0⟩], none)) := by
  constructor
  · apply convLoopF_empty_copilot_last copilot azure MAX_TURNS MAX_TURNS
      [⟨1, "azure_ai_agent", initial_topic, 0⟩] 1 0
    intro t ht hsend
    simp only [List.mem_singleton] at ht
    subst ht
    simp at hsend
  · intro hB hempty
    have hstep := convLoopF_stop_step copilot azure MAX_TURNS 19
      [⟨1, "azure_ai_agent", initial_topic, 0⟩] 1 0 acts (by decide) hB
      (Or.inr hempty)
    show convLoopF copilot azure MAX_TURNS MAX_TURNS
      [⟨1, "azure_ai_agent", initial_topic, 0⟩] 1 0 = _
    rw [show (MAX_TURNS : Nat) = 19 + 1 from rfl] at hstep ⊢
    rw [hstep, hempty]
    rfl

/-- Witness for C4: a Copilot Studio endpoint that streams one whitespace
message fragment on every call. -/
theorem claim_C4_empty_copilot_message_terminates_witness :
    ((fun _ _ => Except.ok [some ⟨ActivityType.message, some " "⟩]) :
        Nat → String → Except Unit (List (Option Activity))) 0 "Hi" =
      Except.ok [some ⟨ActivityType.message, some " "⟩] ∧
    pyStrip (collectCopilotResponse [some ⟨ActivityType.message, some " "⟩]) = "" ∧
    (emptyCopilotOnlyLast (start_conversation
        ((fun _ _ => Except.ok [some ⟨ActivityType.message, some " "⟩]) :
          Nat → String → Except Unit (List (Option Activity)))
        (fun _ _ _ => Except.ok "next") "Hi").1 ∧
      start_conversation
        ((fun _ _ => Except.ok [some ⟨ActivityType.message, some " "⟩]) :
          Nat → String → Except Unit (List (Option Activity)))
        (fun _ _ _ => Except.ok "next") "Hi" =
        ([⟨1, "azure_ai_agent", "Hi", 0⟩, ⟨2, "copilot_studio", "", 0⟩], none)) :=
  ⟨rfl, by decide,
    (claim_C4_empty_copilot_message_terminates
      ((fun _ _ => Except.ok [some ⟨ActivityType.message, some " "⟩]) :
        Nat → String → Except Unit (List (Option Activity)))
      (fun _ _ _ => Except.ok "next") "Hi"
      [some ⟨ActivityType.message, some " "⟩]).1,
    (claim_C4_empty_copilot_message_terminates
      ((fun _ _ => Except.ok [some ⟨ActivityType.message, some " "⟩]) :
        Nat → String → Except Unit (List (Option Activity)))
      (fun _ _ _ => Except.ok "next") "Hi"
      [some ⟨ActivityType.message, some " "⟩]).2 rfl (by decide)⟩

/-- C6: when the Copilot Studio endpoint raises on its first call inside
the loop, `start_conversation` propagates that error uncaught, and at that
moment the turns list holds exactly the seed record: turn 1, sender
`azure_ai_agent`, the topic as message. -/
theorem claim_C6_copilot_error_propagates_after_seed_turn {ε : Type}
    (copilot : Nat → String → Except ε (List (Option Activity)))
    (azure : Nat → String → Nat → Except ε String) (initial_topic : String)
    (e : ε) (hB : copilot 0 initial_topic = Except.error e) :
    start_conversation copilot azure initial_topic =
      ([⟨1, "azure_ai_agent", initial_topic, 0⟩], some e) := by
  have hstep := convLoopF_error_step copilot azure MAX_TURNS 19
    [⟨1, "azure_ai_agent", initial_topic, 0⟩] 1 0 e (by decide) hB
  show convLoopF copilot azure MAX_TURNS MAX_TURNS
    [⟨1, "azure_ai_agent", initial_topic, 0⟩] 1 0 = _
  rw [show (MAX_TURNS : Nat) = 19 + 1 from rfl] at hstep ⊢
  exact hstep

/-- Witness for C6: an endpoint that raises `()` on every call. -/
theorem claim_C6_copilot_error_propagates_after_seed_turn_witness :
    ((fun _ _ => Except.error ()) :
        Nat → String → Except Unit (List (Option Activity))) 0 "Hi" =
      Except.error () ∧
    start_conversation
        ((fun _ _ => Except.error ()) :
          Nat → String → Except Unit (List (Option Activity)))
        (fun _ _ _ => Except.ok "next") "Hi" =
      ([⟨1, "azure_ai_agent", "Hi", 0⟩], some ()) :=
  ⟨rfl, claim_C6_copilot_error_propagates_after_seed_turn _ _ "Hi" () rfl⟩

/-- In a list where every sender is one of the two agents, the two
per-sender filters partition the list. -/
theorem filter_sender_partition (l : List ConversationTurn)
    (h : ∀ t ∈ l, t.sender = "azure_ai_agent" ∨ t.sender = "copilot_studio") :
    (l.filter (fun t => t.sender == "azure_ai_agent")).length +
      (l.filter (fun t => t.sender == "copilot_studio")).length = l.length := by
  induction l with
  | nil => simp
  | cons t ts ih =>
    have hts : ∀ u ∈ ts, u.sender = "azure_ai_agent" ∨
        u.sender = "copilot_studio" :=
      fun u hu => h u (List.mem_cons_of_mem t hu)
    have hsum := ih hts
    rcases h t (List.mem_cons_self t ts) with h1 | h1 <;>
      simp [List.filter_cons, h1] <;> omega

/-- Every record produced by `start_conversation` carries one of the two
sender names. -/
theorem start_conversation_senders {ε : Type}
    (copilot : Nat → String → Except ε (List (Option Activity)))
    (azure : Nat → String → Nat → Except ε String) (initial_topic : String) :
    ∀ t ∈ (start_conversation copilot azure initial_topic).1,
      t.sender = "azure_ai_agent" ∨ t.sender = "copilot_studio" := by
  apply convLoopF_all
    (fun t => t.sender = "azure_ai_agent" ∨ t.sender = "copilot_studio")
    copilot azure MAX_TURNS (fun n s => Or.inr rfl) (fun n s => Or.inl rfl)
  intro t ht
  simp only [List.mem_singleton] at ht
  subst ht
  exact Or.inl rfl

/-- C7: `get_conversation_summary` is a pure function of the turn list; on
every conversation state reachable through `start_conversation`,
`total_turns` is the list length, the two per-sender counts add up to it,
`conversation_length` is the character length of the full transcript, and
`turns` is the ordered reduction to turn/sender/message triples. -/
theorem claim_C7_summary_is_faithful_statistics {ε : Type}
    (copilot : Nat → String → Except ε (List (Option Activity)))
    (azure : Nat → String → Nat → Except ε String) (initial_topic : String) :
    (get_conversation_summary
        (start_conversation copilot azure initial_topic).1).total_turns =
      (start_conversation copilot azure initial_topic).1.length ∧
    (get_conversation_summary
        (start_conversation copilot azure initial_topic).1).azure_ai_turns +
      (get_conversation_summary
        (start_conversation copilot azure initial_topic).1).copilot_studio_turns =
      (start_conversation copilot azure initial_topic).1.length ∧
    (get_conversation_summary
        (start_conversation copilot azure initial_topic).1).conversation_length =
      (get_full_conversation_text
        (start_conversation copilot azure initial_topic).1).length ∧
    (get_conversation_summary
        (start_conversation copilot azure initial_topic).1).turns =
      (start_conversation copilot azure initial_topic).1.map
        (fun t => ⟨t.turn_number, t.sender, t.message⟩) := by
  refine ⟨rfl, ?_, rfl, rfl⟩
  exact filter_sender_partition _
    (start_conversation_senders copilot azure initial_topic)

/-- C8: `get_full_conversation_text` renders the turns in exactly their
stored order, each contributing the line
`"Turn {n} - {label}: {message}"` plus a blank line, with label
`"Azure AI Agent"` for sender `azure_ai_agent` and `"Copilot Studio"`
otherwise; as a pure function it returns identical strings on repeated
calls and cannot modify the state. -/
theorem claim_C8_transcript_renders_in_order (turns : List ConversationTurn) :
    get_full_conversation_text turns =
      joinStrings (turns.map (fun turn =>
        "Turn " ++ toString turn.turn_number ++ " - " ++
          sender_label turn.sender ++ ": " ++ turn.message ++ "\n\n")) ∧
    sender_label "azure_ai_agent" = "Azure AI Agent" ∧
    (∀ s, s ≠ "azure_ai_agent" → sender_label s = "Copilot Studio") := by
  refine ⟨?_, rfl, ?_⟩
  · have h := foldl_append_string
      (fun turn : ConversationTurn =>
        "Turn " ++ toString turn.turn_number ++ " - " ++
          sender_label turn.sender ++ ": " ++ turn.message ++ "\n\n")
      (fun conversation_text turn =>
        conversation_text ++ "Turn " ++ toString turn.turn_number ++ " - " ++
          sender_label turn.sender ++ ": " ++ turn.message ++ "\n\n")
      (by
        intro acc x
        simp [String.append_assoc])
      turns ""
    rw [get_full_conversation_text, h, str_empty_append]
  · intro s hs
    simp [sender_label, hs]

/-- Witness for C8 at a concrete turn list and sender. -/
theorem claim_C8_transcript_renders_in_order_witness :
    get_full_conversation_text [⟨1, "azure_ai_agent", "Hi", 0⟩] =
      joinStrings ([(⟨1, "azure_ai_agent", "Hi", 0⟩ : ConversationTurn)].map
        (fun turn =>
          "Turn " ++ toString turn.turn_number ++ " - " ++
            sender_label turn.sender ++ ": " ++ turn.message ++ "\n\n")) ∧
    ("copilot_studio" : String) ≠ "azure_ai_agent" ∧
    sender_label "copilot_studio" = "Copilot Studio" :=
  ⟨(claim_C8_transcript_renders_in_order [⟨1, "azure_ai_agent", "Hi", 0⟩]).1,
    by decide,
    (claim_C8_transcript_renders_in_order [⟨1, "azure_ai_agent", "Hi", 0⟩]).2.2
      "copilot_studio" (by decide)⟩

/-- C10: the stream consumption tolerates absent fragments and absent
fragment text — each element contributes exactly `fragment_text`, which is
`""` for a `None` activity, for a non-`message` activity and for a
`message` activity with `None` text — and every recorded Copilot Studio
message is the whitespace-stripped concatenation, hence a `pyStrip`
fixpoint with no leading or trailing whitespace (and always a total
string, never an absent value). -/
theorem claim_C10_stream_tolerates_missing_fragments {ε : Type}
    (copilot : Nat → String → Except ε (List (Option Activity)))
    (azure : Nat → String → Nat → Except ε String) (initial_topic : String) :
    (∀ acts : List (Option Activity),
      collectCopilotResponse acts = joinStrings (acts.map fragment_text)) ∧
    fragment_text none = "" ∧
    (∀ a : Activity, a.type ≠ ActivityType.message → fragment_text (some a) = "") ∧
    fragment_text (some ⟨ActivityType.message, none⟩) = "" ∧
    (∀ t ∈ (start_conversation copilot azure initial_topic).1,
      t.sender = "copilot_studio" → pyStrip t.message = t.message) := by
  refine ⟨?_, rfl, ?_, rfl, ?_⟩
  · intro acts
    have h := foldl_append_string fragment_text
      (fun copilot_response oa =>
        match oa with
        | none => copilot_response
        | some activity =>
            if activity.type = ActivityType.message then
              copilot_response ++ activity.text.getD ""
            else copilot_response)
      (by
        intro acc x
        cases x with
        | none => exact (str_append_empty acc).symm
        | some a =>
          by_cases ha : a.type = ActivityType.message <;>
            simp [fragment_text, ha, str_append_empty])
      acts ""
    rw [collectCopilotResponse, h, str_empty_append]
  · intro a ha
    simp [fragment_text, ha]
  · apply convLoopF_all
      (fun t => t.sender = "copilot_studio" → pyStrip t.message = t.message)
      copilot azure MAX_TURNS
      (fun n s _ => pyStrip_idem s)
      (fun n s hs => by simp at hs)
    intro t ht
    simp only [List.mem_singleton] at ht
    subst ht
    intro hs
    simp at hs

/-- Witness for C10: concrete endpoints, fragment and recorded turn. -/
theorem claim_C10_stream_tolerates_missing_fragments_witness :
    collectCopilotResponse [none, some ⟨ActivityType.other, some "skip"⟩,
        some ⟨ActivityType.message, none⟩] =
      joinStrings ([none, some ⟨ActivityType.other, some "skip"⟩,
        some ⟨ActivityType.message, none⟩].map fragment_text) ∧
    ((⟨ActivityType.other, some "skip"⟩ : Activity).type ≠ ActivityType.message ∧
      fragment_text (some ⟨ActivityType.other, some "skip"⟩) = "") ∧
    ((⟨2, "copilot_studio", "", 0⟩ : ConversationTurn) ∈
        (start_conversation
          ((fun _ _ => Except.ok []) :
            Nat → String → Except Unit (List (Option Activity)))
          (fun _ _ _ => Except.ok "next") "Hi").1 ∧
      pyStrip (⟨2, "copilot_studio", "", 0⟩ : ConversationTurn).message =
        (⟨2, "copilot_studio", "", 0⟩ : ConversationTurn).message) :=
  ⟨(claim_C10_stream_tolerates_missing_fragments
      ((fun _ _ => Except.ok []) :
        Nat → String → Except Unit (List (Option Activity)))
      (fun _ _ _ => Except.ok "next") "Hi").1 _,
   ⟨by decide,
    (claim_C10_stream_tolerates_missing_fragments
      ((fun _ _ => Except.ok []) :
        Nat → String → Except Unit (List (Option Activity)))
      (fun _ _ _ => Except.ok "next") "Hi").2.2.1 _ (by decide)⟩,
   ⟨by decide,
    (claim_C10_stream_tolerates_missing_fragments
      ((fun _ _ => Except.ok []) :
        Nat → String → Except Unit (List (Option Activity)))
      (fun _ _ _ => Except.ok "next") "Hi").2.2.2.2 _ (by decide) rfl⟩⟩

/-- Counterexample to C5 as stated: at a concrete failing call the remote
error is raised (wrapped), yet the internal conversation history is NOT
left unchanged — it grew from `[]` to hold the incoming message. -/
theorem claim_C5_counterexample_history_not_unchanged :
    (continue_conversation (fun _ => Except.error "boom") "prompt" []
        "hello" 1).2 =
      Except.error "Failed to continue conversation: boom" ∧
    (continue_conversation (fun _ => Except.error "boom") "prompt" []
        "hello" 1).1 ≠ [] := by
  constructor
  · rfl
  · decide

/-- C5 amended: when the remote call of `continue_conversation` raises, the
raised error wraps the underlying cause, but the internal history is not
left unchanged: the incoming message was appended as a `user` entry before
the remote call and remains there (only the assistant reply is withheld). -/
theorem claim_C5_error_wraps_cause_and_keeps_incoming_in_history
    (api : List ChatMessage → Except String String) (system_prompt : String)
    (conversation_history : List HistoryEntry) (other_agent_response : String)
    (turn_number : Nat) (e : String)
    (hfail : api (build_messages system_prompt
        (conversation_history ++ [⟨"user", other_agent_response, turn_number⟩])
        turn_number) = Except.error e) :
    continue_conversation api system_prompt conversation_history
        other_agent_response turn_number =
      (conversation_history ++ [⟨"user", other_agent_response, turn_number⟩],
        Except.error ("Failed to continue conversation: " ++ e)) := by
  simp [continue_conversation, hfail]

/-- Witness for the amended C5 at a concrete failing call. -/
theorem claim_C5_error_wraps_cause_and_keeps_incoming_in_history_witness :
    ((fun _ => Except.error "boom") : List ChatMessage → Except String String)
        (build_messages "prompt" ([] ++ [⟨"user", "hello", 1⟩]) 1) =
      Except.error "boom" ∧
    continue_conversation (fun _ => Except.error "boom") "prompt" [] "hello" 1 =
      ([] ++ [⟨"user", "hello", 1⟩],
        Except.error ("Failed to continue conversation: " ++ "boom")) :=
  ⟨rfl, claim_C5_error_wraps_cause_and_keeps_incoming_in_history
    (fun _ => Except.error "boom") "prompt" [] "hello" 1 "boom" rfl⟩

/-- Counterexample to C9 as stated: `get_conversation_history` returns a
shallow copy, so mutating a record entry reached through the returned list
(here the entry at the first address it holds) does change the internal
conversation history view. -/
theorem claim_C9_counterexample_entry_mutation_visible :
    let h0 : PyHeap := ⟨fun _ => [0], fun _ => ⟨"assistant", "a", 1⟩⟩
    let res := get_conversation_history h0 0 1
    let mutated := updateEntry res.1 ((res.1.lists res.2).headD 0) ⟨"user", "X", 2⟩
    viewHistory mutated 0 ≠ viewHistory res.1 0 := by
  decide

/-- C9 amended: `get_conversation_history` returns a shallow copy — a
fresh list object holding the same entry addresses.  Mutating the returned
list itself never affects the internal history, and the copy initially
shows exactly the internal records; but the entry records are shared, so
an in-place mutation of an entry reached through the returned list is
visible in the internal history as well. -/
theorem claim_C9_history_copy_is_shallow (h : PyHeap) (histAddr fresh : Nat)
    (hfresh : fresh ≠ histAddr) (l : List Nat) (eid : Nat) (e : HistoryEntry) :
    viewHistory (updateList (get_conversation_history h histAddr fresh).1
        (get_conversation_history h histAddr fresh).2 l) histAddr =
      viewHistory h histAddr ∧
    viewHistory (get_conversation_history h histAddr fresh).1
        (get_conversation_history h histAddr fresh).2 = viewHistory h histAddr ∧
    (eid ∈ (get_conversation_history h histAddr fresh).1.lists
        (get_conversation_history h histAddr fresh).2 →
      viewHistory (updateEntry (get_conversation_history h histAddr fresh).1
          eid e) histAddr =
        (h.lists histAddr).map (fun j => if j = eid then e else h.entries j)) := by
  have hne : histAddr ≠ fresh := Ne.symm hfresh
  refine ⟨?_, ?_, ?_⟩
  · simp [viewHistory, updateList, get_conversation_history, hne]
  · simp [viewHistory, updateList, get_conversation_history]
  · intro _
    simp [viewHistory, updateList, updateEntry, get_conversation_history, hne]

/-- Witness for the amended C9 at a concrete heap. -/
theorem claim_C9_history_copy_is_shallow_witness :
    (1 : Nat) ≠ 0 ∧
    (0 ∈ (get_conversation_history
        (⟨fun _ => [0], fun _ => ⟨"assistant", "a", 1⟩⟩ : PyHeap) 0 1).1.lists
        (get_conversation_history
          (⟨fun _ => [0], fun _ => ⟨"assistant", "a", 1⟩⟩ : PyHeap) 0 1).2 ∧
      viewHistory (updateEntry (get_conversation_history
          (⟨fun _ => [0], fun _ => ⟨"assistant", "a", 1⟩⟩ : PyHeap) 0 1).1
          0 ⟨"user", "X", 2⟩) 0 =
        (((⟨fun _ => [0], fun _ => ⟨"assistant", "a", 1⟩⟩ : PyHeap).lists 0).map
          (fun j => if j = 0 then (⟨"user", "X", 2⟩ : HistoryEntry)
            else (⟨fun _ => [0], fun _ => ⟨"assistant", "a", 1⟩⟩ : PyHeap).entries j))) :=
  ⟨by decide,
    by decide,
    (claim_C9_history_copy_is_shallow
      (⟨fun _ => [0], fun _ => ⟨"assistant", "a", 1⟩⟩ : PyHeap) 0 1
      (by decide) [] 0 ⟨"user", "X", 2⟩).2.2 (by decide)⟩

end AgentTesting
